import Mathlib

/-!
Verification of the bonding-curve issuance and vesting engine of the
Fund-dot-fun repository: the contracts `BondingCurve` (buy/sell pricing,
fee split, graduation) and `ERC20Token`/`TokenFactory` (deployer vesting,
milestone gate, token ownership).  The definitions below are a shallow
embedding of the Solidity source: contract storage becomes the record
`Fund.Sys`, each external function becomes a Lean function returning
`Except Err (Sys × List Event)` (Solidity's revert-and-roll-back semantics
are encoded by returning an error and no new state), and all 256-bit
arithmetic is carried out in `Nat` (the quantities involved stay far below
2^256, and Solidity 0.8 reverts rather than wraps, which the explicit
guards reproduce where subtraction or division could misbehave).
-/

namespace Fund

/-- 0.0001 ether, `BASE_PRICE` of `BondingCurve`. -/
def BASE_PRICE : Nat := 100000000000000

/-- Fixed-point scale `1e18` used by the curve's price arithmetic. -/
def SCALE : Nat := 1000000000000000000

/-- `PLATFORM_FEE = 75` basis points (0.75%). -/
def PLATFORM_FEE : Nat := 75

/-- `DEPLOYER_FEE = 0`. -/
def DEPLOYER_FEE : Nat := 0

/-- `FEE_DENOMINATOR = 10000`. -/
def FEE_DENOMINATOR : Nat := 10000

/-- `GRADUATION_THRESHOLD = 100 ether`. -/
def GRADUATION_THRESHOLD : Nat := 100000000000000000000

/-- `BURN_PERCENTAGE = 1000` (10%). -/
def BURN_PERCENTAGE : Nat := 1000

/-- `MIN_BUY = 0.05 ether`. -/
def MIN_BUY : Nat := 50000000000000000

/-- `TOTAL_SUPPLY = 1_000_000_000 * 10 ** 18` of `ERC20Token`. -/
def TOTAL_SUPPLY : Nat := 1000000000000000000000000000

/-- `DEPLOYER_ALLOCATION = TOTAL_SUPPLY * 2 / 100` (2% of total supply). -/
def DEPLOYER_ALLOCATION : Nat := 20000000000000000000000000

/-- `VESTING_DURATION = 180 days` in seconds. -/
def VESTING_DURATION : Nat := 15552000

/-- Error outcomes; each constructor corresponds to a `require`/revert in the
source, named after the specification's error taxonomy. -/
inductive Err where
  | BelowMinimum
  | AlreadyGraduated
  | ZeroOutput
  | InvalidAmount
  | TransferFailure
  | InsufficientReserve
  | Unauthorized
  | NoFeesAvailable
  | DivisionByZero
  | AlreadyInit
  | VestingOngoing
  | MilestonesAlreadySet
  | ZeroAddress
  | InsufficientBalance
  deriving DecidableEq, Repr

/-- Events emitted by the two contracts. -/
inductive Event where
  | Bought (buyer ethIn tokensOut platformFee : Nat)
  | Sold (seller ethOut tokensIn platformFee : Nat)
  | Graduated (marketCap liquidity : Nat)
  | TokensMinted (recipient amount : Nat)
  | TokensBurned (holder amount : Nat)
  | MilestonesReached
  | DeployerTokensVested (amount : Nat)
  | UnvestedTokensBurned (amount : Nat)
  deriving DecidableEq, Repr

/-- Combined storage of one `ERC20Token`/`BondingCurve` pair.  Addresses are
modelled as natural numbers (`0` plays the role of `address(0)`).
`totalSupply` is the ERC20 total supply, which is exactly the circulating
supply (every mint goes to a holder, every burn removes held tokens);
`curveEthBalance` is `address(bondingCurve).balance`. -/
structure Sys where
  curveAddr : Nat
  factoryAddr : Nat
  deployer : Nat
  platform : Nat
  tokenOwner : Nat
  totalSupply : Nat
  vestingStartTime : Nat
  vestedAmount : Nat
  milestonesReached : Bool
  totalEthInvested : Nat
  hasGraduated : Bool
  platformFeesCollected : Nat
  liquidityAdded : Bool
  curveEthBalance : Nat
  deriving DecidableEq, Repr

/-- `BondingCurve.getCurrentPrice`: `BASE_PRICE` when the token's total supply
is zero, otherwise `totalEthInvested * 1e18 / totalSupply`. -/
def getCurrentPrice (s : Sys) : Nat :=
  if s.totalSupply = 0 then BASE_PRICE
  else s.totalEthInvested * SCALE / s.totalSupply

/-- `BondingCurve.getMarketCap`. -/
def getMarketCap (s : Sys) : Nat := s.totalEthInvested

/-- `BondingCurve._calculateFees`: returns `(netAmount, platformFee,
deployerFee)`; the identity with zero fees once the curve has graduated. -/
def calculateFees (s : Sys) (amount : Nat) : Nat × Nat × Nat :=
  if s.hasGraduated then (amount, 0, 0)
  else
    let platformFee := amount * PLATFORM_FEE / FEE_DENOMINATOR
    let deployerFee := amount * DEPLOYER_FEE / FEE_DENOMINATOR
    (amount - platformFee - deployerFee, platformFee, deployerFee)

/-- The fee-net part of a gross amount under the active (not graduated) fee
policy; equals the first component of `calculateFees` before graduation. -/
def netCollateral (amount : Nat) : Nat :=
  amount - amount * PLATFORM_FEE / FEE_DENOMINATOR - amount * DEPLOYER_FEE / FEE_DENOMINATOR

/-- `BondingCurve.calculateBuyReturn`: `ethIn * 1e18 / price`. -/
def calculateBuyReturn (s : Sys) (ethIn : Nat) : Nat :=
  ethIn * SCALE / getCurrentPrice s

/-- `BondingCurve.calculateSellReturn`: `tokensIn * price / 1e18`. -/
def calculateSellReturn (s : Sys) (tokensIn : Nat) : Nat :=
  tokensIn * getCurrentPrice s / SCALE

/-- Modelled from the spec: `BondingCurve._executeGraduation` calls
`token.burnFrom(address(this), burnAmount)`, but `ERC20Token` in the source
defines no function named `burnFrom`; only its call site is in the
repository.  The specification says graduation burns `BURN_PERCENTAGE` (10%)
of the current circulating supply from the engine's own holdings, so the
missing function is modelled as removing the burned amount from circulating
supply. -/
def burnFrom (supply amount : Nat) : Nat := supply - amount

/-- `BondingCurve._checkGraduation`: true when the curve has not graduated and
the market cap has reached `GRADUATION_THRESHOLD`. -/
def checkGraduation (s : Sys) : Bool :=
  if s.hasGraduated then false else decide (GRADUATION_THRESHOLD ≤ getMarketCap s)

/-- `BondingCurve._executeGraduation`: set the graduated latch, burn 10% of the
current supply (when nonzero), mark liquidity as added and emit `Graduated`
with the market cap and the contract's ETH balance. -/
def executeGraduation (s : Sys) : Sys × List Event :=
  let s1 := { s with hasGraduated := true }
  let burnAmount := s1.totalSupply * BURN_PERCENTAGE / FEE_DENOMINATOR
  let s2 := if 0 < burnAmount then { s1 with totalSupply := burnFrom s1.totalSupply burnAmount } else s1
  let s3 := { s2 with liquidityAdded := true }
  (s3, [Event.Graduated (getMarketCap s3) s3.curveEthBalance])

/-- `BondingCurve.buy`.  `msgValue` is `msg.value` (added to the contract's
ETH balance on entry).  The division inside `calculateBuyReturn` is guarded:
Solidity 0.8 reverts on division by zero, modelled as `DivisionByZero`.  The
`token.mint` call succeeds only when the curve is the token's owner
(`ERC20Token.mint` requires `msg.sender == owner`), otherwise the whole call
reverts. -/
def buy (s : Sys) (caller msgValue : Nat) : Except Err (Sys × List Event) :=
  if msgValue < MIN_BUY then .error .BelowMinimum
  else if s.hasGraduated then .error .AlreadyGraduated
  else
    let fees := calculateFees s msgValue
    let ethForTokens := fees.1
    let platformFee := fees.2.1
    if getCurrentPrice s = 0 then .error .DivisionByZero
    else
      let tokensBought := calculateBuyReturn s ethForTokens
      if tokensBought = 0 then .error .ZeroOutput
      else if s.curveAddr ≠ s.tokenOwner then .error .Unauthorized
      else
        let s1 := { s with
          curveEthBalance := s.curveEthBalance + msgValue,
          platformFeesCollected := s.platformFeesCollected + platformFee,
          totalSupply := s.totalSupply + tokensBought,
          totalEthInvested := s.totalEthInvested + ethForTokens }
        if checkGraduation s1 then
          let g := executeGraduation s1
          .ok (g.1, Event.TokensMinted caller tokensBought :: g.2 ++
                [Event.Bought caller msgValue tokensBought platformFee])
        else
          .ok (s1, [Event.TokensMinted caller tokensBought,
                Event.Bought caller msgValue tokensBought platformFee])

/-- `BondingCurve.sell`.  `callerBal` and `allowance` are the caller's token
balance and the allowance granted to the curve; `token.transferFrom` fails
unless both cover `tokenAmount`.  `ethOk` models whether the final ETH
transfer to the caller is accepted; when it is rejected the whole call
reverts ("ETH transfer failed"). -/
def sell (s : Sys) (caller tokenAmount callerBal allowance : Nat) (ethOk : Bool) :
    Except Err (Sys × List Event) :=
  if tokenAmount = 0 then .error .InvalidAmount
  else if s.hasGraduated then .error .AlreadyGraduated
  else if callerBal < tokenAmount || allowance < tokenAmount then .error .TransferFailure
  else
    let ethReturned := calculateSellReturn s tokenAmount
    let fees := calculateFees s ethReturned
    let netEthReturned := fees.1
    let platformFee := fees.2.1
    if s.curveEthBalance < netEthReturned then .error .InsufficientReserve
    else
      let s1 := { s with
        platformFeesCollected := s.platformFeesCollected + platformFee,
        totalSupply := s.totalSupply - tokenAmount,
        totalEthInvested :=
          if netEthReturned < s.totalEthInvested then s.totalEthInvested - netEthReturned else 0,
        curveEthBalance := s.curveEthBalance - netEthReturned }
      if ethOk then
        .ok (s1, [Event.TokensBurned s.curveAddr tokenAmount,
              Event.Sold caller netEthReturned tokenAmount platformFee])
      else .error .TransferFailure

/-- `BondingCurve.withdrawPlatformFees`. -/
def withdrawPlatformFees (s : Sys) (caller : Nat) (ethOk : Bool) :
    Except Err (Sys × List Event) :=
  if caller ≠ s.platform then .error .Unauthorized
  else if s.platformFeesCollected = 0 then .error .NoFeesAvailable
  else
    let s1 := { s with platformFeesCollected := 0,
                       curveEthBalance := s.curveEthBalance - s.platformFeesCollected }
    if ethOk then .ok (s1, []) else .error .TransferFailure

/-- `BondingCurve.initialize`: restricted to deployer or factory, requires the
token supply to still be zero, and has no other effect (it is payable, so the
attached value stays on the contract). -/
def initCurve (s : Sys) (caller msgValue : Nat) : Except Err (Sys × List Event) :=
  if caller = s.deployer || caller = s.factoryAddr then
    if s.totalSupply ≠ 0 then .error .AlreadyInit
    else .ok ({ s with curveEthBalance := s.curveEthBalance + msgValue }, [])
  else .error .Unauthorized

/-- `ERC20Token.mint`: only the token's owner may mint. -/
def mint (s : Sys) (caller recipient amount : Nat) : Except Err (Sys × List Event) :=
  if caller ≠ s.tokenOwner then .error .Unauthorized
  else .ok ({ s with totalSupply := s.totalSupply + amount }, [Event.TokensMinted recipient amount])

/-- `ERC20Token.burn`: burns from the caller's own balance (`callerBal`);
OpenZeppelin's `_burn` reverts when the balance does not cover the amount. -/
def burnTok (s : Sys) (caller callerBal amount : Nat) : Except Err (Sys × List Event) :=
  if callerBal < amount then .error .InsufficientBalance
  else .ok ({ s with totalSupply := s.totalSupply - amount }, [Event.TokensBurned caller amount])

/-- `ERC20Token.transferOwnership`: only the owner, and not to the zero
address. -/
def transferOwnership (s : Sys) (caller newOwner : Nat) : Except Err (Sys × List Event) :=
  if caller ≠ s.tokenOwner then .error .Unauthorized
  else if newOwner = 0 then .error .ZeroAddress
  else .ok ({ s with tokenOwner := newOwner }, [])

/-- `ERC20Token.calculateVestedAmount`: after the vesting window the whole
allocation when milestones were reached and zero otherwise; inside the window
linear interpolation with floor division. -/
def calculateVestedAmount (s : Sys) (now : Nat) : Nat :=
  if s.vestingStartTime + VESTING_DURATION ≤ now then
    if s.milestonesReached then DEPLOYER_ALLOCATION else 0
  else
    DEPLOYER_ALLOCATION * (now - s.vestingStartTime) / VESTING_DURATION

/-- `ERC20Token.claimVestedTokens`: deployer only; mints the newly vested
difference when there is one, otherwise a silent no-op. -/
def claimVestedTokens (s : Sys) (caller now : Nat) : Except Err (Sys × List Event) :=
  if caller ≠ s.deployer then .error .Unauthorized
  else
    let newlyVested := calculateVestedAmount s now
    if s.vestedAmount < newlyVested then
      .ok ({ s with vestedAmount := newlyVested,
                    totalSupply := s.totalSupply + (newlyVested - s.vestedAmount) },
           [Event.DeployerTokensVested (newlyVested - s.vestedAmount)])
    else .ok (s, [])

/-- `ERC20Token.setMilestonesReached`: owner only; sets the latch and emits
`MilestonesReached`. -/
def setMilestonesReached (s : Sys) (caller : Nat) : Except Err (Sys × List Event) :=
  if caller ≠ s.tokenOwner then .error .Unauthorized
  else .ok ({ s with milestonesReached := true }, [Event.MilestonesReached])

/-- `ERC20Token.burnUnvestedTokens`: owner or deployer, only after the vesting
window and only when milestones were never reached; it emits the unvested
remainder but changes no state. -/
def burnUnvestedTokens (s : Sys) (caller now : Nat) : Except Err (Sys × List Event) :=
  if caller = s.tokenOwner || caller = s.deployer then
    if now ≤ s.vestingStartTime + VESTING_DURATION then .error .VestingOngoing
    else if s.milestonesReached then .error .MilestonesAlreadySet
    else .ok (s, [Event.UnvestedTokensBurned (DEPLOYER_ALLOCATION - s.vestedAmount)])
  else .error .Unauthorized

/-- `TokenFactory.transferTokenOwnership`: the deployer asks the factory to
hand the token's ownership over; the inner `transferOwnership` runs with the
factory as `msg.sender`, so it additionally requires the factory to still be
the owner. -/
def transferTokenOwnership (s : Sys) (caller newOwner : Nat) : Except Err (Sys × List Event) :=
  if caller ≠ s.deployer then .error .Unauthorized
  else transferOwnership s s.factoryAddr newOwner

/-- `TokenFactory.createToken`: the combined state of a freshly deployed
token/curve pair; the token's owner is the factory itself (`address(this)` in
the constructor call), supply and curve storage start at zero, and vesting
starts at the creation time. -/
def createToken (factoryAddr deployerAddr platformAddr curveAddr now : Nat) : Sys :=
  { curveAddr := curveAddr
    factoryAddr := factoryAddr
    deployer := deployerAddr
    platform := platformAddr
    tokenOwner := factoryAddr
    totalSupply := 0
    vestingStartTime := now
    vestedAmount := 0
    milestonesReached := false
    totalEthInvested := 0
    hasGraduated := false
    platformFeesCollected := 0
    liquidityAdded := false
    curveEthBalance := 0 }

/-- One external entry point of the system, with the caller and the
environment-supplied data (balances, allowance, clock, transfer outcome). -/
inductive Op where
  | buyOp (caller msgValue : Nat)
  | sellOp (caller tokenAmount callerBal allowance : Nat) (ethOk : Bool)
  | withdrawOp (caller : Nat) (ethOk : Bool)
  | initOp (caller msgValue : Nat)
  | mintOp (caller recipient amount : Nat)
  | burnOp (caller callerBal amount : Nat)
  | transferOwnershipOp (caller newOwner : Nat)
  | claimOp (caller now : Nat)
  | setMilestonesOp (caller : Nat)
  | burnUnvestedOp (caller now : Nat)
  | factoryTransferOp (caller newOwner : Nat)
  deriving DecidableEq, Repr

/-- Dispatch one operation. -/
def step (s : Sys) : Op → Except Err (Sys × List Event)
  | .buyOp c v => buy s c v
  | .sellOp c amt bal allow ok => sell s c amt bal allow ok
  | .withdrawOp c ok => withdrawPlatformFees s c ok
  | .initOp c v => initCurve s c v
  | .mintOp c r amt => mint s c r amt
  | .burnOp c bal amt => burnTok s c bal amt
  | .transferOwnershipOp c n => transferOwnership s c n
  | .claimOp c now => claimVestedTokens s c now
  | .setMilestonesOp c => setMilestonesReached s c
  | .burnUnvestedOp c now => burnUnvestedTokens s c now
  | .factoryTransferOp c n => transferTokenOwnership s c n

/-- Apply one operation with revert semantics: a failed call leaves the state
unchanged and emits nothing. -/
def applyOp (s : Sys) (op : Op) : Sys × List Event :=
  match step s op with
  | .ok r => r
  | .error _ => (s, [])

/-- Run a sequence of operations, collecting all emitted events. -/
def run (s : Sys) : List Op → Sys × List Event
  | [] => (s, [])
  | op :: rest =>
    let r := applyOp s op
    let r2 := run r.1 rest
    (r2.1, r.2 ++ r2.2)

/-- Run a sequence of buys, stopping at the first failure. -/
def buysSeq (s : Sys) : List (Nat × Nat) → Except Err Sys
  | [] => .ok s
  | (c, v) :: rest =>
    match buy s c v with
    | .ok r => buysSeq r.1 rest
    | .error e => .error e

/-- Whether a call reverted. -/
def isErr (r : Except Err (Sys × List Event)) : Bool :=
  match r with
  | .error _ => true
  | .ok _ => false

/-- Recognizer for the `Graduated` event. -/
def isGraduatedEv : Event → Bool
  | .Graduated _ _ => true
  | _ => false

/-- The buy price exactly as the specification sentence words it: guarded on
`collateralInvested == 0` (the source's `getCurrentPrice` instead guards on
the circulating supply being zero).  Kept only to compare the claim's wording
with the source. -/
def specClaimPrice (s : Sys) : Nat :=
  if s.totalEthInvested = 0 then BASE_PRICE
  else s.totalEthInvested * SCALE / s.totalSupply

/-- The storage of a successful `buy` after fee accrual, mint and collateral
increment, i.e. just before the graduation check (the entry state is
necessarily not graduated there, so the fee split is the active one). -/
def mkBuyState (s : Sys) (msgValue : Nat) : Sys :=
  { s with
    curveEthBalance := s.curveEthBalance + msgValue,
    platformFeesCollected :=
      s.platformFeesCollected + msgValue * PLATFORM_FEE / FEE_DENOMINATOR,
    totalSupply := s.totalSupply + calculateBuyReturn s (netCollateral msgValue),
    totalEthInvested := s.totalEthInvested + netCollateral msgValue }

/-- The storage of a successful `sell` of `tokenAmount`: fee accrued, tokens
burned, collateral decremented floored at zero, net ETH paid out. -/
def mkSellState (s : Sys) (tokenAmount : Nat) : Sys :=
  { s with
    platformFeesCollected :=
      s.platformFeesCollected + calculateSellReturn s tokenAmount * PLATFORM_FEE / FEE_DENOMINATOR,
    totalSupply := s.totalSupply - tokenAmount,
    totalEthInvested :=
      if netCollateral (calculateSellReturn s tokenAmount) < s.totalEthInvested then
        s.totalEthInvested - netCollateral (calculateSellReturn s tokenAmount)
      else 0,
    curveEthBalance := s.curveEthBalance - netCollateral (calculateSellReturn s tokenAmount) }

/-- Fresh pair created by the factory: factory address 2, deployer 3,
platform 4, curve 1, creation time 0. -/
def baseState : Sys := createToken 2 3 4 1 0

/-- The fresh pair after the deployer has handed token ownership to the curve
(the state in which buys can succeed). -/
def ownedState : Sys := { baseState with tokenOwner := 1 }

/-- A reachable-shaped state just below the graduation threshold: 99.9 ether
of net collateral backing a supply priced at 0.01 ether per token. -/
def nearGradState : Sys :=
  { ownedState with
    totalSupply := 9990000000000000000000,
    totalEthInvested := 99900000000000000000,
    curveEthBalance := 99900000000000000000 }

/-- A small state used to exercise `sell` concretely. -/
def sellState : Sys :=
  { ownedState with
    totalSupply := 1000000,
    totalEthInvested := 1000000,
    curveEthBalance := 1000000 }

/-- The state a 1 ether buy from `nearGradState` produces: the buy crosses the
graduation threshold, so the latch is set, 10% of the post-mint supply is
burned and liquidity is marked as added. -/
def postGradState : Sys :=
  { ownedState with
    totalSupply := 9080325000000000000000,
    totalEthInvested := 100892500000000000000,
    hasGraduated := true,
    platformFeesCollected := 7500000000000000,
    liquidityAdded := true,
    curveEthBalance := 100900000000000000000 }

/-- The events of that graduating buy. -/
def gradBuyEvents : List Event :=
  [Event.TokensMinted 9 99250000000000000000,
   Event.Graduated 100892500000000000000 100900000000000000000,
   Event.Bought 9 1000000000000000000 99250000000000000000 7500000000000000]

/-- The state a first 1 ether buy from `ownedState` produces. -/
def firstBuyState : Sys :=
  { ownedState with
    totalSupply := 9925000000000000000000,
    totalEthInvested := 992500000000000000,
    platformFeesCollected := 7500000000000000,
    curveEthBalance := 1000000000000000000 }

/-- The events of that first buy. -/
def firstBuyEvs : List Event :=
  [Event.TokensMinted 9 9925000000000000000000,
   Event.Bought 9 1000000000000000000 9925000000000000000000 7500000000000000]

/-- The state after two 1 ether buys from `ownedState`. -/
def twoBuysState : Sys :=
  { ownedState with
    totalSupply := 19850000000000000000000,
    totalEthInvested := 1985000000000000000,
    platformFeesCollected := 15000000000000000,
    curveEthBalance := 2000000000000000000 }

/-- The state a sell of 100000 token units from `sellState` produces. -/
def afterSellState : Sys :=
  { ownedState with
    totalSupply := 900000,
    totalEthInvested := 900750,
    platformFeesCollected := 750,
    curveEthBalance := 900750 }

/-- The events of that sell. -/
def afterSellEvs : List Event :=
  [Event.TokensBurned 1 100000, Event.Sold 9 99250 100000 750]

/-- The curve-owned state with the milestone latch set. -/
def milestonesState : Sys := { ownedState with milestonesReached := true }

/-- Before graduation, `_calculateFees` charges `PLATFORM_FEE` and
`DEPLOYER_FEE` basis points on the gross amount. -/
theorem calcFees_notGrad (s : Sys) (h : s.hasGraduated = false) (v : Nat) :
    calculateFees s v =
      (netCollateral v, v * PLATFORM_FEE / FEE_DENOMINATOR, v * DEPLOYER_FEE / FEE_DENOMINATOR) := by
  simp [calculateFees, h, netCollateral]

/-- After graduation, `_calculateFees` is the identity with zero fees. -/
theorem calcFees_grad (s : Sys) (h : s.hasGraduated = true) (v : Nat) :
    calculateFees s v = (v, 0, 0) := by
  simp [calculateFees, h]

/-- Anatomy of a successful `buy`: the guards it passed and the resulting
state and events, split on whether this buy triggered graduation. -/
theorem buy_ok_cases (s : Sys) (c v : Nat) (s' : Sys) (evs : List Event)
    (h : buy s c v = .ok (s', evs)) :
    s.hasGraduated = false ∧ MIN_BUY ≤ v ∧ getCurrentPrice s ≠ 0 ∧
    calculateBuyReturn s (netCollateral v) ≠ 0 ∧ s.curveAddr = s.tokenOwner ∧
    ((checkGraduation (mkBuyState s v) = true ∧ s' = (executeGraduation (mkBuyState s v)).1 ∧
        evs = Event.TokensMinted c (calculateBuyReturn s (netCollateral v)) ::
          (executeGraduation (mkBuyState s v)).2 ++
          [Event.Bought c v (calculateBuyReturn s (netCollateral v))
            (v * PLATFORM_FEE / FEE_DENOMINATOR)]) ∨
     (checkGraduation (mkBuyState s v) = false ∧ s' = mkBuyState s v ∧
        evs = [Event.TokensMinted c (calculateBuyReturn s (netCollateral v)),
               Event.Bought c v (calculateBuyReturn s (netCollateral v))
                 (v * PLATFORM_FEE / FEE_DENOMINATOR)])) := by
  simp only [buy] at h
  split_ifs at h with hmin hgrad hprice htok hown hcheck
  · have hg : s.hasGraduated = false := by simpa using hgrad
    rw [calcFees_notGrad s hg] at h hcheck htok
    rw [Except.ok.injEq, Prod.mk.injEq] at h
    obtain ⟨hs, he⟩ := h
    refine ⟨hg, Nat.not_lt.mp hmin, hprice, htok, by simpa using hown,
      Or.inl ⟨?_, ?_, ?_⟩⟩
    · exact hcheck
    · exact hs.symm
    · exact he.symm
  · have hg : s.hasGraduated = false := by simpa using hgrad
    rw [calcFees_notGrad s hg] at h hcheck htok
    rw [Except.ok.injEq, Prod.mk.injEq] at h
    obtain ⟨hs, he⟩ := h
    refine ⟨hg, Nat.not_lt.mp hmin, hprice, htok, by simpa using hown,
      Or.inr ⟨?_, ?_, ?_⟩⟩
    · simpa [mkBuyState] using hcheck
    · exact hs.symm
    · exact he.symm

/-- In `Nat`, the source's floored collateral decrement is truncated
subtraction. -/
theorem collateralAfterSell (c net : Nat) : (if net < c then c - net else 0) = c - net := by
  split <;> omega

/-- Anatomy of a successful `sell`: the guards it passed and the resulting
state and events. -/
theorem sell_ok_cases (s : Sys) (c amt bal allow : Nat) (eok : Bool) (s' : Sys)
    (evs : List Event) (h : sell s c amt bal allow eok = .ok (s', evs)) :
    amt ≠ 0 ∧ s.hasGraduated = false ∧ amt ≤ bal ∧ amt ≤ allow ∧
    netCollateral (calculateSellReturn s amt) ≤ s.curveEthBalance ∧ eok = true ∧
    s' = mkSellState s amt ∧
    evs = [Event.TokensBurned s.curveAddr amt,
           Event.Sold c (netCollateral (calculateSellReturn s amt)) amt
             (calculateSellReturn s amt * PLATFORM_FEE / FEE_DENOMINATOR)] := by
  simp only [sell, collateralAfterSell] at h
  split_ifs at h with h0 hgrad htr hres heok
  have hg : s.hasGraduated = false := by simpa using hgrad
  rw [calcFees_notGrad s hg] at h hres
  rw [Except.ok.injEq, Prod.mk.injEq] at h
  obtain ⟨hs, he⟩ := h
  have htr2 : ¬bal < amt ∧ ¬allow < amt := by simpa [not_or] using htr
  refine ⟨h0, hg, Nat.not_lt.mp htr2.1, Nat.not_lt.mp htr2.2, Nat.not_lt.mp hres, heok,
    ?_, he.symm⟩
  rw [← hs]
  simp [mkSellState, collateralAfterSell]

/-- While the curve is not the token's owner, every `buy` reverts (the
`token.mint` call, or an earlier guard, fails). -/
theorem buy_fails_notOwner (s : Sys) (h : s.tokenOwner ≠ s.curveAddr) (c v : Nat) :
    isErr (buy s c v) = true := by
  simp only [buy, isErr]
  split_ifs with h1 h2 h3 h4 h5 h6
  · rfl
  · rfl
  · rfl
  · rfl
  · rfl
  · exact absurd (by simpa using h5 : s.curveAddr = s.tokenOwner).symm h
  · exact absurd (by simpa using h5 : s.curveAddr = s.tokenOwner).symm h

/-- When the computed token output is zero, `buy` reverts with `ZeroOutput`. -/
theorem buy_zeroOutput (s : Sys) (c v : Nat) (hmin : MIN_BUY ≤ v)
    (hg : s.hasGraduated = false) (hp : getCurrentPrice s ≠ 0)
    (ht : calculateBuyReturn s (netCollateral v) = 0) :
    buy s c v = .error .ZeroOutput := by
  simp [buy, calcFees_notGrad s hg, hg, hp, ht, Nat.not_lt.mpr hmin]

/-- When the computed token output is nonzero, `buy` never reports
`ZeroOutput`. -/
theorem buy_ne_zeroOutput (s : Sys) (c v : Nat)
    (hg : s.hasGraduated = false) (hp : getCurrentPrice s ≠ 0)
    (ht : calculateBuyReturn s (netCollateral v) ≠ 0) :
    buy s c v ≠ .error .ZeroOutput := by
  simp only [buy, calcFees_notGrad s hg]
  split_ifs <;> simp_all

/-- Claim C1, counterexample: the claim picks `BASE_PRICE` exactly when
`collateralInvested == 0`, but the source's `getCurrentPrice` picks
`BASE_PRICE` exactly when the circulating supply is zero.  At the concrete
state with `totalSupply = 0` and `totalEthInvested = 1 ether` (the shape a
fee-charging sell of the whole supply leaves behind), the claim's formula
divides the nonzero collateral by the zero supply while the source returns
`BASE_PRICE`, and the buy below succeeds using `BASE_PRICE` as the
conversion price. -/
theorem C1_counterexample :
    specClaimPrice { ownedState with totalEthInvested := 1000000000000000000 } ≠
      getCurrentPrice { ownedState with totalEthInvested := 1000000000000000000 } ∧
    getCurrentPrice { ownedState with totalEthInvested := 1000000000000000000 } = BASE_PRICE ∧
    buy { ownedState with totalEthInvested := 1000000000000000000 } 9 1000000000000000000 =
      .ok ({ ownedState with
               totalEthInvested := 1992500000000000000,
               curveEthBalance := 1000000000000000000,
               platformFeesCollected := 7500000000000000,
               totalSupply := 9925000000000000000000 },
           [Event.TokensMinted 9 9925000000000000000000,
            Event.Bought 9 1000000000000000000 9925000000000000000000 7500000000000000]) := by
  exact ⟨by decide, by decide, by rfl⟩

/-- Claim C1 (amended): for every buy, the conversion price is `BASE_PRICE`
when the circulating supply is zero and `collateralInvested * SCALE /
circulatingSupply` otherwise; whenever that price is nonzero, the buy fails
with `ZeroOutput` exactly when `tokensOut = netCollateral * SCALE / price`
is zero, and a successful buy reports that `tokensOut` in its `Bought`
event. -/
theorem C1_price_tokensOut_amended (s : Sys) (c v : Nat) (hmin : MIN_BUY ≤ v)
    (hg : s.hasGraduated = false) (hp : getCurrentPrice s ≠ 0) :
    getCurrentPrice s =
      (if s.totalSupply = 0 then BASE_PRICE else s.totalEthInvested * SCALE / s.totalSupply) ∧
    (buy s c v = .error .ZeroOutput ↔ netCollateral v * SCALE / getCurrentPrice s = 0) ∧
    (∀ s' evs, buy s c v = .ok (s', evs) →
        Event.Bought c v (netCollateral v * SCALE / getCurrentPrice s)
          (v * PLATFORM_FEE / FEE_DENOMINATOR) ∈ evs) := by
  refine ⟨rfl, ?_, ?_⟩
  · constructor
    · intro he
      by_contra ht
      exact buy_ne_zeroOutput s c v hg hp (by simpa [calculateBuyReturn] using ht) he
    · intro ht
      exact buy_zeroOutput s c v hmin hg hp (by simpa [calculateBuyReturn] using ht)
  · intro s' evs hok
    obtain ⟨_, _, _, _, _, hcases⟩ := buy_ok_cases s c v s' evs hok
    rcases hcases with ⟨_, _, hevs⟩ | ⟨_, _, hevs⟩ <;>
      · subst hevs
        simp [calculateBuyReturn, List.mem_append, List.mem_cons]

/-- Witness for the amended C1 theorem at a concrete fresh state and a 1 ether
buy. -/
theorem C1_witness :
    MIN_BUY ≤ 1000000000000000000 ∧ ownedState.hasGraduated = false ∧
    getCurrentPrice ownedState ≠ 0 ∧
    (buy ownedState 9 1000000000000000000 = .error .ZeroOutput ↔
      netCollateral 1000000000000000000 * SCALE / getCurrentPrice ownedState = 0) := by
  exact ⟨by decide, rfl, by decide,
    (C1_price_tokensOut_amended ownedState 9 1000000000000000000 (by decide) rfl
      (by decide)).2.1⟩

/-- Claim C2: `createToken` makes the factory (not the curve) the token's
owner; `mint` reverts with `Unauthorized` for any caller other than the
owner; while the token's owner is not the curve, every `buy` reverts for all
inputs; and `transferTokenOwnership` called by the deployer, while the
factory still owns the token, hands ownership to the requested new owner
(in particular the curve). -/
theorem C2_owner_gates_buy :
    (∀ f d p cv now, (createToken f d p cv now).tokenOwner = f) ∧
    (∀ s caller r amt, caller ≠ s.tokenOwner → mint s caller r amt = .error .Unauthorized) ∧
    (∀ s caller v, s.tokenOwner ≠ s.curveAddr → isErr (buy s caller v) = true) ∧
    (∀ s newOwner, s.tokenOwner = s.factoryAddr → newOwner ≠ 0 →
        transferTokenOwnership s s.deployer newOwner =
          .ok ({ s with tokenOwner := newOwner }, [])) := by
  refine ⟨fun f d p cv now => rfl, ?_, ?_, ?_⟩
  · intro s caller r amt h
    simp [mint, h]
  · intro s caller v h
    exact buy_fails_notOwner s h caller v
  · intro s newOwner hfo hnz
    simp [transferTokenOwnership, transferOwnership, hfo, hnz]

/-- Witness for C2 on the concrete fresh pair: owner is the factory, a
stranger cannot mint, a buy on the fresh pair reverts, and the deployer's
ownership transfer to the curve yields the curve-owned state. -/
theorem C2_witness :
    (createToken 2 3 4 1 0).tokenOwner = 2 ∧
    mint baseState 9 9 5 = .error .Unauthorized ∧
    isErr (buy baseState 9 1000000000000000000) = true ∧
    transferTokenOwnership baseState 3 1 = .ok (ownedState, []) := by
  obtain ⟨h1, h2, h3, h4⟩ := C2_owner_gates_buy
  exact ⟨h1 2 3 4 1 0, h2 baseState 9 9 5 (by decide),
    h3 baseState 9 1000000000000000000 (by decide), h4 baseState 1 (by decide) (by decide)⟩

/-- Any operation applied in a graduated state keeps the latch set and never
emits `Graduated` again: `buy` and `sell` reject graduated states outright,
`_checkGraduation` returns false once `hasGraduated` holds, and no other
entry point touches the latch or emits `Graduated`. -/
theorem applyOp_preserves_graduated (s : Sys) (op : Op) (h : s.hasGraduated = true) :
    (applyOp s op).1.hasGraduated = true ∧ (applyOp s op).2.countP isGraduatedEv = 0 := by
  cases op <;>
    simp only [applyOp, step, buy, sell, withdrawPlatformFees, initCurve, mint, burnTok,
      transferOwnership, claimVestedTokens, setMilestonesReached, burnUnvestedTokens,
      transferTokenOwnership, h] <;>
    split_ifs <;>
    simp_all [isGraduatedEv, List.countP_cons, List.countP_nil]

/-- Once graduated, any sequence of operations keeps the latch set and emits
no further `Graduated` event. -/
theorem run_preserves_graduated (s : Sys) (ops : List Op) (h : s.hasGraduated = true) :
    (run s ops).1.hasGraduated = true ∧ (run s ops).2.countP isGraduatedEv = 0 := by
  induction ops generalizing s with
  | nil => simpa [run]
  | cons op rest ih =>
    obtain ⟨h1, h2⟩ := applyOp_preserves_graduated s op h
    obtain ⟨h3, h4⟩ := ih (applyOp s op).1 h1
    simp [run, List.countP_append, h2, h3, h4]

/-- Claim C3: a successful buy that brings the collateral to at least
`GRADUATION_THRESHOLD` sets the graduated latch, marks liquidity as
provisioned, emits `Graduated` exactly once, and burns 10% of the post-mint
circulating supply; and from any graduated state, every sequence of
operations keeps the latch set and never emits `Graduated` again. -/
theorem C3_graduation_once :
    (∀ s c v s' evs, buy s c v = .ok (s', evs) →
        GRADUATION_THRESHOLD ≤ s'.totalEthInvested →
        s'.hasGraduated = true ∧ s'.liquidityAdded = true ∧
        evs.countP isGraduatedEv = 1 ∧
        s'.totalSupply = (mkBuyState s v).totalSupply -
          (mkBuyState s v).totalSupply * BURN_PERCENTAGE / FEE_DENOMINATOR) ∧
    (∀ s ops, s.hasGraduated = true →
        (run s ops).1.hasGraduated = true ∧ (run s ops).2.countP isGraduatedEv = 0) := by
  refine ⟨?_, fun s ops h => run_preserves_graduated s ops h⟩
  intro s c v s' evs hok hthr
  obtain ⟨hg, _, _, _, _, hcases⟩ := buy_ok_cases s c v s' evs hok
  rcases hcases with ⟨hcheck, hs, hevs⟩ | ⟨hcheck, hs, hevs⟩
  · subst hs
    subst hevs
    refine ⟨?_, ?_, ?_, ?_⟩
    · simp only [executeGraduation]
      split_ifs <;> rfl
    · simp only [executeGraduation]
    · simp [executeGraduation, isGraduatedEv, List.countP_cons, List.countP_append,
        List.countP_nil]
    · simp only [executeGraduation, burnFrom]
      split_ifs with hb <;> simp_all
  · exfalso
    subst hs
    have hgm : (mkBuyState s v).hasGraduated = false := by simpa [mkBuyState] using hg
    rw [checkGraduation, hgm] at hcheck
    simp [getMarketCap] at hcheck
    omega

/-- Witness for C3: the concrete graduating buy from `nearGradState` and the
latch preservation on a follow-up buy attempt. -/
theorem C3_witness :
    buy nearGradState 9 1000000000000000000 = .ok (postGradState, gradBuyEvents) ∧
    GRADUATION_THRESHOLD ≤ postGradState.totalEthInvested ∧
    postGradState.hasGraduated = true ∧ postGradState.liquidityAdded = true ∧
    gradBuyEvents.countP isGraduatedEv = 1 ∧
    (run postGradState [Op.buyOp 9 1000000000000000000]).1.hasGraduated = true ∧
    (run postGradState [Op.buyOp 9 1000000000000000000]).2.countP isGraduatedEv = 0 := by
  obtain ⟨ha, hb⟩ := C3_graduation_once
  obtain ⟨h1, h2, h3, _⟩ :=
    ha nearGradState 9 1000000000000000000 postGradState gradBuyEvents (by rfl) (by decide)
  obtain ⟨h4, h5⟩ := hb postGradState [Op.buyOp 9 1000000000000000000] h1
  exact ⟨by rfl, by decide, h1, h2, h3, h4, h5⟩

/-- `calculateVestedAmount` never exceeds the deployer allocation: the final
branch returns the allocation or zero, and during the window the linear
interpolation of an elapsed time below the duration stays below the
allocation. -/
theorem vested_le_alloc (s : Sys) (t : Nat) :
    calculateVestedAmount s t ≤ DEPLOYER_ALLOCATION := by
  rw [calculateVestedAmount]
  split_ifs with hf hm
  · exact Nat.le_refl _
  · exact Nat.zero_le _
  · calc DEPLOYER_ALLOCATION * (t - s.vestingStartTime) / VESTING_DURATION
        ≤ DEPLOYER_ALLOCATION * VESTING_DURATION / VESTING_DURATION :=
          Nat.div_le_div_right (Nat.mul_le_mul_left _ (by omega))
      _ = DEPLOYER_ALLOCATION := Nat.mul_div_cancel _ (by decide)

/-- Claim C4, counterexample: with milestones unmet, the amount vested one
second before the vesting window closes exceeds the amount vested at its
close (`calculateVestedAmount` drops to zero at `vestingStart +
VESTING_DURATION` when `milestonesReached` is false), so the formula is not
monotone regardless of the milestone flag. -/
theorem C4_counterexample :
    baseState.vestingStartTime ≤ 15551999 ∧ (15551999 : Nat) ≤ 15552000 ∧
    baseState.milestonesReached = false ∧
    ¬ calculateVestedAmount baseState 15551999 ≤ calculateVestedAmount baseState 15552000 := by
  exact ⟨by decide, by decide, rfl, by decide⟩

/-- Claim C4 (amended): `calculateVestedAmount` is bounded above by
`totalAllocation` for every timestamp regardless of the milestone flag, and
is monotone between timestamps `t1 ≤ t2` (at or after `vestingStart`)
whenever `milestonesReached` is set, and also whenever `t2` still lies
inside the vesting window; unconditional monotonicity fails exactly at the
window's close with milestones unmet. -/
theorem C4_vesting_monotone_bounded_amended (s : Sys) (t1 t2 : Nat)
    (h1 : s.vestingStartTime ≤ t1) (h12 : t1 ≤ t2) :
    (∀ t, calculateVestedAmount s t ≤ DEPLOYER_ALLOCATION) ∧
    ((s.milestonesReached = true ∨ t2 < s.vestingStartTime + VESTING_DURATION) →
      calculateVestedAmount s t1 ≤ calculateVestedAmount s t2) := by
  refine ⟨fun t => vested_le_alloc s t, ?_⟩
  intro hgate
  by_cases hf2 : s.vestingStartTime + VESTING_DURATION ≤ t2
  · have hm : s.milestonesReached = true := by
      rcases hgate with hm | hlt
      · exact hm
      · omega
    have : calculateVestedAmount s t2 = DEPLOYER_ALLOCATION := by
      rw [calculateVestedAmount, if_pos hf2, hm]
      simp
    rw [this]
    exact vested_le_alloc s t1
  · have hf1 : ¬ s.vestingStartTime + VESTING_DURATION ≤ t1 := by omega
    rw [calculateVestedAmount, calculateVestedAmount, if_neg hf1, if_neg hf2]
    exact Nat.div_le_div_right (Nat.mul_le_mul_left _ (by omega))

/-- Witness for the amended C4 theorem with milestones set: concrete monotone
pair and bound. -/
theorem C4_witness :
    milestonesState.vestingStartTime ≤ 100 ∧ (100 : Nat) ≤ 200 ∧
    calculateVestedAmount milestonesState 100 ≤ calculateVestedAmount milestonesState 200 ∧
    calculateVestedAmount milestonesState 200 ≤ DEPLOYER_ALLOCATION := by
  have h := C4_vesting_monotone_bounded_amended milestonesState 100 200 (by decide) (by decide)
  exact ⟨by decide, by decide, h.2 (Or.inl rfl), h.1 200⟩

/-- Graduation leaves the accrued platform fees untouched. -/
theorem execGrad_fees (x : Sys) :
    (executeGraduation x).1.platformFeesCollected = x.platformFeesCollected := by
  simp only [executeGraduation]
  split_ifs <;> rfl

/-- Graduation leaves the invested collateral untouched. -/
theorem execGrad_eth (x : Sys) :
    (executeGraduation x).1.totalEthInvested = x.totalEthInvested := by
  simp only [executeGraduation]
  split_ifs <;> rfl

/-- Claim C5: buys charge the fee on the gross collateral input before the
conversion (the accrual grows by `grossIn * 75 / 10000` and the `Bought`
event reports tokens computed from the fee-net remainder at the pre-buy
price), sells charge the fee on the gross collateral return after the
conversion, and once graduated `_calculateFees` is the identity with zero
fee components. -/
theorem C5_fee_ordering :
    (∀ s c v s' evs, buy s c v = .ok (s', evs) →
        s'.platformFeesCollected =
          s.platformFeesCollected + v * PLATFORM_FEE / FEE_DENOMINATOR ∧
        Event.Bought c v (calculateBuyReturn s (netCollateral v))
          (v * PLATFORM_FEE / FEE_DENOMINATOR) ∈ evs) ∧
    (∀ s c amt bal allow eok s' evs, sell s c amt bal allow eok = .ok (s', evs) →
        s'.platformFeesCollected =
          s.platformFeesCollected + calculateSellReturn s amt * PLATFORM_FEE / FEE_DENOMINATOR ∧
        Event.Sold c (netCollateral (calculateSellReturn s amt)) amt
          (calculateSellReturn s amt * PLATFORM_FEE / FEE_DENOMINATOR) ∈ evs) ∧
    (∀ s v, s.hasGraduated = true → calculateFees s v = (v, 0, 0)) := by
  refine ⟨?_, ?_, fun s v h => calcFees_grad s h v⟩
  · intro s c v s' evs hok
    obtain ⟨_, _, _, _, _, hcases⟩ := buy_ok_cases s c v s' evs hok
    rcases hcases with ⟨_, hs, hevs⟩ | ⟨_, hs, hevs⟩ <;> subst hs <;> subst hevs
    · exact ⟨by rw [execGrad_fees]; simp [mkBuyState], by simp⟩
    · exact ⟨by simp [mkBuyState], by simp⟩
  · intro s c amt bal allow eok s' evs hok
    obtain ⟨_, _, _, _, _, _, hs, hevs⟩ := sell_ok_cases s c amt bal allow eok s' evs hok
    subst hs
    subst hevs
    exact ⟨by simp [mkSellState], by simp⟩

/-- Witness for C5: the concrete first buy, the concrete sell, and the
identity fee split on the graduated state. -/
theorem C5_witness :
    firstBuyState.platformFeesCollected =
      ownedState.platformFeesCollected +
        1000000000000000000 * PLATFORM_FEE / FEE_DENOMINATOR ∧
    afterSellState.platformFeesCollected =
      sellState.platformFeesCollected +
        calculateSellReturn sellState 100000 * PLATFORM_FEE / FEE_DENOMINATOR ∧
    calculateFees postGradState 12345 = (12345, 0, 0) := by
  obtain ⟨hbuy, hsell, hgrad⟩ := C5_fee_ordering
  exact ⟨(hbuy ownedState 9 1000000000000000000 firstBuyState firstBuyEvs (by rfl)).1,
    (hsell sellState 9 100000 100000 100000 true afterSellState afterSellEvs (by rfl)).1,
    hgrad postGradState 12345 rfl⟩

/-- Claim C6: a sell whose token transfer from the caller fails (balance or
allowance below the requested amount) reverts with `TransferFailure`, and
under the revert semantics the state is exactly as before the call, in
particular `totalEthInvested`, `platformFeesCollected` and `totalSupply`. -/
theorem C6_sell_transfer_failure (s : Sys) (c amt bal allow : Nat) (eok : Bool)
    (hg : s.hasGraduated = false) (hfail : bal < amt ∨ allow < amt) :
    sell s c amt bal allow eok = .error .TransferFailure ∧
    applyOp s (.sellOp c amt bal allow eok) = (s, []) := by
  have h0 : amt ≠ 0 := by rcases hfail with h | h <;> omega
  have hcond : (decide (bal < amt) || decide (allow < amt)) = true := by
    rcases hfail with h | h <;> simp [h]
  have hsell : sell s c amt bal allow eok = .error .TransferFailure := by
    simp [sell, h0, hg, hcond]
  exact ⟨hsell, by simp [applyOp, step, hsell]⟩

/-- Witness for C6: a concrete sell with an empty balance reverts with
`TransferFailure` and leaves the state unchanged. -/
theorem C6_witness :
    sellState.hasGraduated = false ∧ (0 : Nat) < 5 ∧
    sell sellState 9 5 0 0 true = .error .TransferFailure ∧
    applyOp sellState (.sellOp 9 5 0 0 true) = (sellState, []) := by
  have h := C6_sell_transfer_failure sellState 9 5 0 0 true rfl (Or.inl (by decide))
  exact ⟨rfl, by decide, h.1, h.2⟩

/-- At `vestingStart + VESTING_DURATION / 2` the vested amount is exactly half
the allocation (the division is exact for these constants). -/
theorem vestedAt_half (s : Sys) :
    calculateVestedAmount s (s.vestingStartTime + VESTING_DURATION / 2) =
      DEPLOYER_ALLOCATION / 2 := by
  have hpos : 0 < VESTING_DURATION := by decide
  rw [calculateVestedAmount, if_neg (by omega)]
  have harg : s.vestingStartTime + VESTING_DURATION / 2 - s.vestingStartTime =
      VESTING_DURATION / 2 := by omega
  rw [harg]
  decide

/-- Claim C7: a deployer claim at `vestingStart + VESTING_DURATION / 2` with
nothing vested yet mints exactly `DEPLOYER_ALLOCATION / 2` (floor) to the
deployer and sets `vestedAmount` to it; a second claim at the same timestamp
succeeds, mints nothing, changes no state and emits no event. -/
theorem C7_half_time_claim (s : Sys) (hv : s.vestedAmount = 0) :
    claimVestedTokens s s.deployer (s.vestingStartTime + VESTING_DURATION / 2) =
      .ok ({ s with
               vestedAmount := DEPLOYER_ALLOCATION / 2,
               totalSupply := s.totalSupply + DEPLOYER_ALLOCATION / 2 },
           [Event.DeployerTokensVested (DEPLOYER_ALLOCATION / 2)]) ∧
    claimVestedTokens
        { s with
            vestedAmount := DEPLOYER_ALLOCATION / 2,
            totalSupply := s.totalSupply + DEPLOYER_ALLOCATION / 2 }
        s.deployer (s.vestingStartTime + VESTING_DURATION / 2) =
      .ok ({ s with
               vestedAmount := DEPLOYER_ALLOCATION / 2,
               totalSupply := s.totalSupply + DEPLOYER_ALLOCATION / 2 }, []) := by
  constructor
  · simp [claimVestedTokens, vestedAt_half, hv]
    decide
  · have h2 := vestedAt_half
      { s with
          vestedAmount := DEPLOYER_ALLOCATION / 2,
          totalSupply := s.totalSupply + DEPLOYER_ALLOCATION / 2 }
    simp only [] at h2
    simp [claimVestedTokens, h2]

/-- Witness for C7: the concrete half-time claim on the fresh pair. -/
theorem C7_witness :
    baseState.vestedAmount = 0 ∧
    claimVestedTokens baseState 3 7776000 =
      .ok ({ baseState with
               vestedAmount := 10000000000000000000000000,
               totalSupply := 10000000000000000000000000 },
           [Event.DeployerTokensVested 10000000000000000000000000]) := by
  refine ⟨rfl, ?_⟩
  have h := (C7_half_time_claim baseState rfl).1
  exact h

/-- Every successful buy increments the invested collateral by exactly the
fee-net part of its gross input, whether or not it graduates the curve. -/
theorem buy_ok_eth (s : Sys) (c v : Nat) (s' : Sys) (evs : List Event)
    (h : buy s c v = .ok (s', evs)) :
    s'.totalEthInvested = s.totalEthInvested + netCollateral v := by
  obtain ⟨_, _, _, _, _, hcases⟩ := buy_ok_cases s c v s' evs h
  rcases hcases with ⟨_, hs, _⟩ | ⟨_, hs, _⟩ <;> subst hs
  · rw [execGrad_eth]
    simp [mkBuyState]
  · simp [mkBuyState]

/-- A successful buy starts from a not-yet-graduated state. -/
theorem buy_ok_notGrad (s : Sys) (c v : Nat) (r : Sys × List Event)
    (h : buy s c v = .ok r) : s.hasGraduated = false :=
  (buy_ok_cases s c v r.1 r.2 (by rwa [] at h)).1

/-- Along a successful buy sequence whose final state is not graduated, the
collateral grows by exactly the sum of the buys' fee-net contributions. -/
theorem buysSeq_sum (l : List (Nat × Nat)) (s s' : Sys) (h : buysSeq s l = .ok s')
    (hg : s'.hasGraduated = false) :
    s'.totalEthInvested = s.totalEthInvested + (l.map (fun p => netCollateral p.2)).sum := by
  induction l generalizing s with
  | nil =>
    simp only [buysSeq, Except.ok.injEq] at h
    subst h
    simp
  | cons p rest ih =>
    obtain ⟨c, v⟩ := p
    simp only [buysSeq] at h
    cases hb : buy s c v with
    | error e =>
      rw [hb] at h
      exact absurd h (by simp)
    | ok r =>
      rw [hb] at h
      have hmid := ih r.1 h
      have heth : r.1.totalEthInvested = s.totalEthInvested + netCollateral v :=
        buy_ok_eth s c v r.1 r.2 (by rwa [] at hb)
      rw [hmid, heth]
      simp [List.sum_cons]
      omega

/-- Claim C8: starting from a state with zero invested collateral, after any
sequence of successful buys that leaves the curve ungraduated (hence it was
ungraduated throughout), `collateralInvested` equals exactly the sum of the
buys' fee-net collateral contributions, with no rounding drift.  Applying
the statement to every prefix of a sequence gives the invariant after each
individual buy. -/
theorem C8_collateral_is_sum (l : List (Nat × Nat)) (s s' : Sys)
    (hinit : s.totalEthInvested = 0) (h : buysSeq s l = .ok s')
    (hg : s'.hasGraduated = false) :
    s'.totalEthInvested = (l.map (fun p => netCollateral p.2)).sum := by
  rw [buysSeq_sum l s s' h hg, hinit, Nat.zero_add]

/-- Witness for C8: two concrete 1 ether buys from the fresh curve-owned
state. -/
theorem C8_witness :
    ownedState.totalEthInvested = 0 ∧
    buysSeq ownedState [(9, 1000000000000000000), (9, 1000000000000000000)] =
      .ok twoBuysState ∧
    twoBuysState.hasGraduated = false ∧
    twoBuysState.totalEthInvested =
      ([(9, 1000000000000000000), (9, 1000000000000000000)].map
        (fun p => netCollateral p.2)).sum := by
  exact ⟨rfl, by rfl, rfl,
    C8_collateral_is_sum [(9, 1000000000000000000), (9, 1000000000000000000)]
      ownedState twoBuysState rfl (by rfl) rfl⟩

/-- Claim C9: a successful sell burns exactly the sold tokens, pays out
exactly the fee-net return (the reserve covers it and the `Sold` event
reports it), and decrements the invested collateral by the net return,
flooring at zero instead of failing when the net return exceeds it. -/
theorem C9_sell_floor (s : Sys) (c amt bal allow : Nat) (eok : Bool) (s' : Sys)
    (evs : List Event) (h : sell s c amt bal allow eok = .ok (s', evs))
    (hsup : amt ≤ s.totalSupply) :
    (s.totalEthInvested < netCollateral (calculateSellReturn s amt) →
      s'.totalEthInvested = 0) ∧
    (netCollateral (calculateSellReturn s amt) ≤ s.totalEthInvested →
      s'.totalEthInvested = s.totalEthInvested - netCollateral (calculateSellReturn s amt)) ∧
    s'.curveEthBalance = s.curveEthBalance - netCollateral (calculateSellReturn s amt) ∧
    netCollateral (calculateSellReturn s amt) ≤ s.curveEthBalance ∧
    s'.totalSupply + amt = s.totalSupply ∧
    Event.Sold c (netCollateral (calculateSellReturn s amt)) amt
      (calculateSellReturn s amt * PLATFORM_FEE / FEE_DENOMINATOR) ∈ evs := by
  obtain ⟨_, _, _, _, hres, _, hs, hevs⟩ := sell_ok_cases s c amt bal allow eok s' evs h
  subst hs
  subst hevs
  refine ⟨?_, ?_, by simp [mkSellState], hres, ?_, by simp⟩
  · intro hlt
    simp only [mkSellState]
    split_ifs with hx <;> omega
  · intro hle
    simp only [mkSellState]
    split_ifs with hx <;> omega
  · simp only [mkSellState]
    omega

/-- Witness for C9: the concrete sell of 100000 token units from
`sellState`. -/
theorem C9_witness :
    (100000 : Nat) ≤ sellState.totalSupply ∧
    afterSellState.totalEthInvested =
      sellState.totalEthInvested - netCollateral (calculateSellReturn sellState 100000) ∧
    afterSellState.totalSupply + 100000 = sellState.totalSupply ∧
    Event.Sold 9 (netCollateral (calculateSellReturn sellState 100000)) 100000
      (calculateSellReturn sellState 100000 * PLATFORM_FEE / FEE_DENOMINATOR) ∈
      afterSellEvs := by
  have h := C9_sell_floor sellState 9 100000 100000 100000 true afterSellState afterSellEvs
    (by rfl) (by decide)
  exact ⟨by decide, h.2.1 (by decide), h.2.2.2.2.1, h.2.2.2.2.2⟩

/-- Setting `milestonesReached` to true in a state where it already holds
changes nothing (structure eta). -/
theorem set_true_eta (s : Sys) (h : s.milestonesReached = true) :
    { s with milestonesReached := true } = s := by
  cases s
  simp_all

/-- No single operation ever unsets the milestone latch: only
`setMilestonesReached` writes the flag, and it writes `true`. -/
theorem applyOp_preserves_milestones (s : Sys) (op : Op) (h : s.milestonesReached = true) :
    (applyOp s op).1.milestonesReached = true := by
  cases op <;>
    simp only [applyOp, step, buy, sell, withdrawPlatformFees, initCurve, mint, burnTok,
      transferOwnership, claimVestedTokens, setMilestonesReached, burnUnvestedTokens,
      transferTokenOwnership, executeGraduation, h] <;>
    split_ifs <;>
    simp_all

/-- No sequence of operations ever unsets the milestone latch. -/
theorem run_preserves_milestones (s : Sys) (ops : List Op) (h : s.milestonesReached = true) :
    (run s ops).1.milestonesReached = true := by
  induction ops generalizing s with
  | nil => simpa [run]
  | cons op rest ih =>
    have h1 := applyOp_preserves_milestones s op h
    simpa [run] using ih (applyOp s op).1 h1

/-- Claim C10: `setMilestonesReached` reverts with `Unauthorized` for any
caller other than the token's owner; once the latch is set no sequence of
operations ever unsets it; and an owner call with the latch already set
leaves the state exactly unchanged (it only re-emits the event). -/
theorem C10_milestones_latch :
    (∀ s caller, caller ≠ s.tokenOwner →
        setMilestonesReached s caller = .error .Unauthorized) ∧
    (∀ s ops, s.milestonesReached = true → (run s ops).1.milestonesReached = true) ∧
    (∀ s, s.milestonesReached = true → ∀ caller,
        (applyOp s (.setMilestonesOp caller)).1 = s) := by
  refine ⟨?_, fun s ops h => run_preserves_milestones s ops h, ?_⟩
  · intro s caller h
    simp [setMilestonesReached, h]
  · intro s hm caller
    by_cases hc : caller = s.tokenOwner
    · simp [applyOp, step, setMilestonesReached, hc, set_true_eta s hm]
    · simp [applyOp, step, setMilestonesReached, hc]

/-- Witness for C10: a stranger's call reverts, the latch survives a buy, and
an owner re-set leaves the concrete state unchanged. -/
theorem C10_witness :
    setMilestonesReached sellState 9 = .error .Unauthorized ∧
    (run milestonesState [Op.buyOp 9 1000000000000000000]).1.milestonesReached = true ∧
    (applyOp milestonesState (.setMilestonesOp 1)).1 = milestonesState := by
  obtain ⟨h1, h2, h3⟩ := C10_milestones_latch
  exact ⟨h1 sellState 9 (by decide),
    h2 milestonesState [Op.buyOp 9 1000000000000000000] rfl,
    h3 milestonesState rfl 1⟩

end Fund
